import Mathlib

/-
Shallow embedding of the validation and classification engine of the
KK & NIK data-checking dashboard (src/app.py).

The engine consists of six field-level predicates
(is_valid_kk_no, is_valid_nik, is_valid_custname, is_valid_jenis_kelamin,
is_valid_tempat_lahir, is_valid_tanggal_lahir), a per-record failure
annotation built by string concatenation (the Check_Desc column of
clean_data), the clean/messy partition returned by clean_data, and the
per-rule invalid counts computed by substring search over the messy
descriptions (the invalid_counts dictionary).

Modelling conventions:
  - Python strings are lists of characters with ASCII semantics
    (upper-casing, digit tests and whitespace are the ASCII fragment of
    Python's Unicode behaviour, which is all the data model exercises);
  - a cell value is a PyVal: a string, None, float nan, or a pandas
    Timestamp (the value kinds a dtype=str DataFrame cell can hold here);
  - the wall-clock date read by datetime.today() inside
    is_valid_tanggal_lahir is passed explicitly as a `today` parameter,
    as the spec requires it to be injectable;
  - datetime.strptime(s, '%d/%m/%Y') is modelled by strptimeDMY following
    CPython's _strptime: day and month are 1-2 digit tokens bounded by 31
    and 12, the year is exactly 4 digits, the whole string must be
    consumed, and constructing the date enforces calendar validity
    (proleptic Gregorian month lengths, year at least 1).
-/

/-- Python strings, modelled as lists of characters. -/
abbrev PyStr := List Char

/-- Calendar dates as produced by datetime.date() / pandas Timestamps. -/
structure PyDate where
  year : Nat
  month : Nat
  day : Nat
deriving DecidableEq

/-- Ordering of datetime.date values: lexicographic on (year, month, day). -/
def PyDate.le (a b : PyDate) : Prop :=
  a.year < b.year ∨ (a.year = b.year ∧
    (a.month < b.month ∨ (a.month = b.month ∧ a.day ≤ b.day)))

instance (a b : PyDate) : Decidable (PyDate.le a b) := by
  unfold PyDate.le; infer_instance

/-- Boolean form of the date comparison dt.date() <= datetime.today().date(). -/
def PyDate.leb (a b : PyDate) : Bool := decide (PyDate.le a b)

/-- Cell values observable by the validation rules: a text cell, Python
None, float nan (pandas missing values), or a pandas Timestamp. -/
inductive PyVal where
  | str (s : PyStr)
  | pyNone
  | nan
  | timestamp (d : PyDate)
deriving DecidableEq

/-- Model of pd.isna: true exactly on missing values (None and nan). -/
def pyIsna : PyVal → Bool
  | .pyNone => true
  | .nan => true
  | _ => false

/-- Decimal digit characters of a natural number (used only to render
non-string values inside failure descriptions). -/
def natChars (n : Nat) : List Char := Nat.toDigits 10 n

/-- Zero-padded two-digit rendering. -/
def pad2 (n : Nat) : List Char := if n < 10 then '0' :: natChars n else natChars n

/-- Zero-padded four-digit rendering. -/
def pad4 (n : Nat) : List Char :=
  List.replicate (4 - (natChars n).length) '0' ++ natChars n

/-- Model of str() on a pandas Timestamp: "YYYY-MM-DD 00:00:00". -/
def tsChars (d : PyDate) : List Char :=
  pad4 d.year ++ '-' :: (pad2 d.month ++ '-' :: (pad2 d.day ++ " 00:00:00".toList))

/-- Model of Python str(x), as applied by astype(str) and by
is_valid_jenis_kelamin. -/
def pyToStr : PyVal → PyStr
  | .str s => s
  | .pyNone => "None".toList
  | .nan => "nan".toList
  | .timestamp d => tsChars d

/-- Characters stripped by Python str.strip() with no argument. -/
def pySpace (c : Char) : Bool :=
  c == ' ' || c == '\t' || c == '\n' || c == '\r' || c == '\x0b' || c == '\x0c'

/-- Model of str.upper() (ASCII fragment). -/
def pyUpper (s : PyStr) : PyStr := s.map Char.toUpper

/-- Leading-whitespace removal, the left half of str.strip(). -/
def pyLstrip (s : PyStr) : PyStr := s.dropWhile pySpace

/-- Trailing-whitespace removal, the right half of str.strip(). -/
def pyRstrip (s : PyStr) : PyStr := (s.reverse.dropWhile pySpace).reverse

/-- Model of str.strip(): drop whitespace from both ends. -/
def pyStrip (s : PyStr) : PyStr := pyRstrip (pyLstrip s)

/-- Model of str.isdigit(): nonempty and every character a decimal digit. -/
def pyIsdigit (s : PyStr) : Bool := !s.isEmpty && s.all Char.isDigit

/-- Model of str.endswith(suffix). -/
def pyEndsWith (s suf : PyStr) : Bool := suf.isSuffixOf s

/-- Rule for KK_NO (app.py line 29): a string of 16 digits not ending in
"0000". -/
def is_valid_kk_no : PyVal → Bool
  | .str s => pyIsdigit s && s.length == 16 && !(pyEndsWith s ("0000".toList))
  | _ => false

/-- Rule for NIK (app.py line 32), textually identical to the KK_NO rule. -/
def is_valid_nik : PyVal → Bool
  | .str s => pyIsdigit s && s.length == 16 && !(pyEndsWith s ("0000".toList))
  | _ => false

/-- Rule for CUSTNAME (app.py line 35): a string containing no digit. -/
def is_valid_custname : PyVal → Bool
  | .str s => !(s.any Char.isDigit)
  | _ => false

/-- The accepted gender spellings of app.py line 39. -/
def genderSet : List PyStr :=
  ["LAKI-LAKI".toList, "LAKI - LAKI".toList, "LAKI LAKI".toList, "PEREMPUAN".toList]

/-- Rule for JENIS_KELAMIN (app.py line 38):
str(x).upper().strip() must be in the accepted set. -/
def is_valid_jenis_kelamin (x : PyVal) : Bool :=
  decide (pyStrip (pyUpper (pyToStr x)) ∈ genderSet)

/-- Rule for TEMPAT_LAHIR (app.py line 41): a string whose upper-cased,
stripped form is in the reference city list. -/
def is_valid_tempat_lahir (x : PyVal) (kota_list : List PyStr) : Bool :=
  match x with
  | .str s => decide (pyStrip (pyUpper s) ∈ kota_list)
  | _ => false

/-- Value of a decimal-digit string. -/
def natOfDigits (s : PyStr) : Nat := s.foldl (fun a c => a * 10 + (c.toNat - 48)) 0

/-- Split on '/' exactly as the literal separators of the '%d/%m/%Y'
strptime pattern consume them. -/
def splitSlash : PyStr → List PyStr
  | [] => [[]]
  | c :: rest =>
    match splitSlash rest with
    | [] => [[c]]
    | h :: t => if c == '/' then [] :: h :: t else (c :: h) :: t

/-- Day token of the %d directive: the strings matched by the _strptime
alternation 3[01]|[12]d|0[1-9]|[1-9], i.e. one or two digits with value
1..31 and no "00"/three-digit forms. -/
def dayTok (s : PyStr) : Bool :=
  s.all Char.isDigit &&
    ((s.length == 1 && decide (1 ≤ natOfDigits s)) ||
     (s.length == 2 && decide (1 ≤ natOfDigits s) && decide (natOfDigits s ≤ 31)))

/-- Month token of the %m directive: one or two digits with value 1..12. -/
def monTok (s : PyStr) : Bool :=
  s.all Char.isDigit &&
    ((s.length == 1 && decide (1 ≤ natOfDigits s)) ||
     (s.length == 2 && decide (1 ≤ natOfDigits s) && decide (natOfDigits s ≤ 12)))

/-- Year token of the %Y directive: exactly four digits. -/
def yearTok (s : PyStr) : Bool := s.all Char.isDigit && s.length == 4

/-- Proleptic-Gregorian leap year test, as in Python's datetime. -/
def isLeap (y : Nat) : Bool := y % 4 == 0 && (y % 100 != 0 || y % 400 == 0)

/-- Month lengths used by datetime when constructing the parsed date. -/
def daysInMonth (y m : Nat) : Nat :=
  if m == 2 then (if isLeap y then 29 else 28)
  else if m == 4 || m == 6 || m == 9 || m == 11 then 30
  else 31

/-- Model of datetime.strptime(s, '%d/%m/%Y'): token-match the three
fields against the whole string, then build the date, which fails for
year 0 and for a day beyond the month length. Returns none where Python
raises ValueError. -/
def strptimeDMY (s : PyStr) : Option PyDate :=
  match splitSlash s with
  | [ds, ms, ys] =>
    if dayTok ds && monTok ms && yearTok ys then
      let d := natOfDigits ds
      let m := natOfDigits ms
      let y := natOfDigits ys
      if 1 ≤ y ∧ d ≤ daysInMonth y m then some ⟨y, m, d⟩ else none
    else none
  | _ => none

/-- Rule for TANGGAL_LAHIR (app.py lines 44-53): missing values fail; a
Timestamp is compared directly; anything else is stringified, parsed as
DD/MM/YYYY (parse failure caught, yielding false), and the parsed date
must be on or before `today`. -/
def is_valid_tanggal_lahir (today : PyDate) (x : PyVal) : Bool :=
  if pyIsna x then false
  else match x with
  | .timestamp d => PyDate.leb d today
  | _ =>
    match strptimeDMY (pyToStr x) with
    | some d => PyDate.leb d today
    | none => false

/-- A record of the six required columns, all cells PyVal (the upload
path reads every sheet with dtype=str). -/
structure Record where
  KK_NO : PyVal
  NIK : PyVal
  CUSTNAME : PyVal
  JENIS_KELAMIN : PyVal
  TANGGAL_LAHIR : PyVal
  TEMPAT_LAHIR : PyVal
deriving DecidableEq

/-- Failure marker of the KK_NO rule, as written into Check_Desc. -/
def mkKK : PyStr := "Invalid KK_NO".toList

/-- Failure marker of the NIK rule. -/
def mkNIK : PyStr := "Invalid NIK".toList

/-- Failure marker of the CUSTNAME rule. -/
def mkName : PyStr := "Invalid Name".toList

/-- Failure marker of the JENIS_KELAMIN rule. -/
def mkGender : PyStr := "Invalid Gender".toList

/-- Failure marker of the TEMPAT_LAHIR rule. -/
def mkPlace : PyStr := "Invalid Place".toList

/-- Failure marker of the TANGGAL_LAHIR rule. -/
def mkDate : PyStr := "Invalid Birth Date".toList

/-- The six failure markers in the fixed rule order of clean_data. -/
def markerList : List PyStr := [mkKK, mkNIK, mkName, mkGender, mkPlace, mkDate]

/-- Text between a rule message and the offending value in a segment. -/
def openParen : PyStr := " (".toList

/-- Text closing a segment: the closing parenthesis and the separator. -/
def segClose : PyStr := "); ".toList

/-- One Check_Desc segment, the f-string "Invalid X ({v}); ". -/
def seg (m v : PyStr) : PyStr := m ++ openParen ++ v ++ segClose

/-- The Check_Desc annotation of one record: the six masked += lines of
clean_data (app.py lines 73-78) in their fixed order, each appending its
segment exactly when its rule fails. -/
def checkDesc (kota : List PyStr) (today : PyDate) (r : Record) : PyStr :=
  (if is_valid_kk_no r.KK_NO then [] else seg mkKK (pyToStr r.KK_NO)) ++
  (if is_valid_nik r.NIK then [] else seg mkNIK (pyToStr r.NIK)) ++
  (if is_valid_custname r.CUSTNAME then [] else seg mkName (pyToStr r.CUSTNAME)) ++
  (if is_valid_jenis_kelamin r.JENIS_KELAMIN then [] else seg mkGender (pyToStr r.JENIS_KELAMIN)) ++
  (if is_valid_tempat_lahir r.TEMPAT_LAHIR kota then [] else seg mkPlace (pyToStr r.TEMPAT_LAHIR)) ++
  (if is_valid_tanggal_lahir today r.TANGGAL_LAHIR then [] else seg mkDate (pyToStr r.TANGGAL_LAHIR))

/-- The clean_mask of app.py line 69: conjunction of the six rules. -/
def cleanMask (kota : List PyStr) (today : PyDate) (r : Record) : Bool :=
  is_valid_kk_no r.KK_NO && is_valid_nik r.NIK && is_valid_custname r.CUSTNAME &&
  is_valid_jenis_kelamin r.JENIS_KELAMIN && is_valid_tempat_lahir r.TEMPAT_LAHIR kota &&
  is_valid_tanggal_lahir today r.TANGGAL_LAHIR

/-- Model of clean_data (app.py lines 56-81): returns (messy_df, clean_df).
Messy rows carry their Check_Desc string; clean rows are the rows passing
the clean mask, with the Check_Desc column dropped. -/
def clean_data (rows : List Record) (kota : List PyStr) (today : PyDate) :
    List (Record × PyStr) × List Record :=
  let clean_df := rows.filter (cleanMask kota today)
  let annotated := rows.map (fun r => (r, checkDesc kota today r))
  let messy_df := annotated.filter (fun p => !p.2.isEmpty)
  (messy_df, clean_df)

/-- Boolean substring test, modelling pandas Series.str.contains with a
metacharacter-free pattern. -/
def listContains (hay needle : PyStr) : Bool :=
  hay.tails.any (fun t => needle.isPrefixOf t)

/-- One entry of the invalid_counts dictionary (app.py lines 140-147):
how many messy rows' Check_Desc contains the marker. -/
def invalidCount (messy : List (Record × PyStr)) (marker : PyStr) : Nat :=
  (messy.filter (fun p => listContains p.2 marker)).length

/-- Rule index i applied to record r, in the fixed rule order
(KK_NO, NIK, Name, Gender, Place, Birth Date). -/
def ruleOk (kota : List PyStr) (today : PyDate) : Fin 6 → Record → Bool
  | ⟨0, _⟩, r => is_valid_kk_no r.KK_NO
  | ⟨1, _⟩, r => is_valid_nik r.NIK
  | ⟨2, _⟩, r => is_valid_custname r.CUSTNAME
  | ⟨3, _⟩, r => is_valid_jenis_kelamin r.JENIS_KELAMIN
  | ⟨4, _⟩, r => is_valid_tempat_lahir r.TEMPAT_LAHIR kota
  | ⟨5, _⟩, r => is_valid_tanggal_lahir today r.TANGGAL_LAHIR
  | ⟨n + 6, h⟩, _ => absurd h (by omega)

/-- Marker of rule index i. -/
def markerOf : Fin 6 → PyStr
  | ⟨0, _⟩ => mkKK
  | ⟨1, _⟩ => mkNIK
  | ⟨2, _⟩ => mkName
  | ⟨3, _⟩ => mkGender
  | ⟨4, _⟩ => mkPlace
  | ⟨5, _⟩ => mkDate
  | ⟨n + 6, h⟩ => absurd h (by omega)

/-- Field validated by rule index i. -/
def fieldOf : Fin 6 → Record → PyVal
  | ⟨0, _⟩, r => r.KK_NO
  | ⟨1, _⟩, r => r.NIK
  | ⟨2, _⟩, r => r.CUSTNAME
  | ⟨3, _⟩, r => r.JENIS_KELAMIN
  | ⟨4, _⟩, r => r.TEMPAT_LAHIR
  | ⟨5, _⟩, r => r.TANGGAL_LAHIR
  | ⟨n + 6, h⟩, _ => absurd h (by omega)

/-- The failing rules of a record, in the fixed rule order, paired as
(marker, stringified raw value). Specification-side view of Check_Desc. -/
def failItems (kota : List PyStr) (today : PyDate) (r : Record) : List (PyStr × PyStr) :=
  (List.finRange 6).filterMap fun i =>
    if ruleOk kota today i r then none else some (markerOf i, pyToStr (fieldOf i r))

/-- Concatenation of the segments of a list of (marker, value) items. -/
def descOf (items : List (PyStr × PyStr)) : PyStr :=
  (items.map fun p => seg p.1 p.2).flatten

/-- The failure descriptions of one record without their trailing
separator: "<RuleMessage> (<offending raw value>)" per failing rule. -/
def failSegs (kota : List PyStr) (today : PyDate) (r : Record) : List PyStr :=
  (failItems kota today r).map fun p => p.1 ++ openParen ++ p.2 ++ [')']

/-- The separator joining failure descriptions. -/
def descSep : PyStr := "; ".toList

/-- Acceptance condition the specification states for TANGGAL_LAHIR: the
value is text that parses as a day/month/year date (4-digit year) on or
before the reference date. Used to compare the rule against the claim. -/
def specDMYAccept (today : PyDate) (v : PyVal) : Prop :=
  ∃ s d, v = PyVal.str s ∧ strptimeDMY s = some d ∧ PyDate.leb d today = true

/-- Checks that no nonempty suffix of a is a prefix of m, ruling out
occurrences of m spanning out of a block ending in a. -/
def overlapFree (a m : List Char) : Bool :=
  a.tails.all fun s => s.isEmpty || !(s.isPrefixOf m)

/-- Exception-aware isinstance(x, str) (never raises). -/
def pyIsStr : PyVal → Bool
  | .str _ => true
  | _ => false

/-- Exception-aware x.isdigit(): attribute access on a non-string raises. -/
def pyIsdigitE : PyVal → Except PyStr Bool
  | .str s => .ok (pyIsdigit s)
  | _ => .error ("AttributeError".toList)

/-- Exception-aware len(x) for the rule bodies. -/
def pyLenE : PyVal → Except PyStr Nat
  | .str s => .ok s.length
  | _ => .error ("TypeError".toList)

/-- Exception-aware x.endswith(t). -/
def pyEndsWithE (t : PyStr) : PyVal → Except PyStr Bool
  | .str s => .ok (pyEndsWith s t)
  | _ => .error ("AttributeError".toList)

/-- Exception-aware any(ch.isdigit() for ch in x). -/
def pyAnyDigitE : PyVal → Except PyStr Bool
  | .str s => .ok (s.any Char.isDigit)
  | _ => .error ("TypeError".toList)

/-- Exception-aware x.upper().strip() on a value known to be a string. -/
def pyUpperStripE : PyVal → Except PyStr PyStr
  | .str s => .ok (pyStrip (pyUpper s))
  | _ => .error ("AttributeError".toList)

/-- Exception-raising model of strptime: ValueError where parsing fails. -/
def strptimeE (s : PyStr) : Except PyStr PyDate :=
  match strptimeDMY s with
  | some d => .ok d
  | none => .error ("ValueError".toList)

/-- is_valid_kk_no with each primitive allowed to raise: the isinstance
guard and Python's short-circuiting `and` keep every primitive safe. -/
def is_valid_kk_noE (x : PyVal) : Except PyStr Bool := do
  if !(pyIsStr x) then return false
  let dig ← pyIsdigitE x
  if !dig then return false
  let n ← pyLenE x
  if !(n == 16) then return false
  let ends ← pyEndsWithE ("0000".toList) x
  return !ends

/-- is_valid_nik with raising primitives (same body as the KK_NO rule). -/
def is_valid_nikE (x : PyVal) : Except PyStr Bool := do
  if !(pyIsStr x) then return false
  let dig ← pyIsdigitE x
  if !dig then return false
  let n ← pyLenE x
  if !(n == 16) then return false
  let ends ← pyEndsWithE ("0000".toList) x
  return !ends

/-- is_valid_custname with raising primitives. -/
def is_valid_custnameE (x : PyVal) : Except PyStr Bool := do
  if !(pyIsStr x) then return false
  let d ← pyAnyDigitE x
  return !d

/-- is_valid_jenis_kelamin with raising primitives: str(x) is total, so
no primitive can raise. -/
def is_valid_jenis_kelaminE (x : PyVal) : Except PyStr Bool :=
  .ok (decide (pyStrip (pyUpper (pyToStr x)) ∈ genderSet))

/-- is_valid_tempat_lahir with raising primitives. -/
def is_valid_tempat_lahirE (x : PyVal) (kota_list : List PyStr) : Except PyStr Bool := do
  if !(pyIsStr x) then return false
  let u ← pyUpperStripE x
  return decide (u ∈ kota_list)

/-- is_valid_tanggal_lahir with a raising strptime; the try/except of
app.py lines 49-52 turns the ValueError into a false verdict. -/
def is_valid_tanggal_lahirE (today : PyDate) (x : PyVal) : Except PyStr Bool :=
  if pyIsna x then .ok false
  else match x with
  | .timestamp d => .ok (PyDate.leb d today)
  | _ =>
    match strptimeE (pyToStr x) with
    | .ok d => .ok (PyDate.leb d today)
    | .error _ => .ok false


/-- Example records used to instantiate theorems about clean_data. -/
def cxToday : PyDate := ⟨2024, 6, 1⟩

/-- Reference city list used by the instantiations. -/
def cxKota : List PyStr := ["JAKARTA".toList]

/-- A record whose only failing rule is the name rule, and whose raw
CUSTNAME text itself contains the KK_NO failure marker. -/
def cxRecord : Record :=
  ⟨.str "1234567890123451".toList, .str "1234567890123452".toList,
   .str "Invalid KK_NO 1".toList, .str "PEREMPUAN".toList,
   .str "01/01/2000".toList, .str "JAKARTA".toList⟩

/-- A record with marker-free field values whose NIK rule fails. -/
def wRecord : Record :=
  ⟨.str "1234567890123451".toList, .str "1234567890120000".toList,
   .str "Budi".toList, .str "LAKI-LAKI".toList,
   .str "01/01/2000".toList, .str "JAKARTA".toList⟩

theorem listContains_iff {hay needle : PyStr} :
    listContains hay needle = true ↔ needle <:+: hay := by
  unfold listContains
  rw [ List.any_eq_true]
  constructor
  · rintro ⟨t, ht, hp⟩
    exact List.infix_iff_prefix_suffix.mpr
      ⟨t, List.isPrefixOf_iff_prefix.mp hp, (List.mem_tails t hay).mp ht⟩
  · intro h
    rcases List.infix_iff_prefix_suffix.mp h with ⟨t, hp, hs⟩
    exact ⟨t, (List.mem_tails t hay).mpr hs, List.isPrefixOf_iff_prefix.mpr hp⟩

theorem isInfix_iff_drop {α : Type} {m l : List α} :
    m <:+: l ↔ ∃ n, m <+: List.drop n l := by
  constructor
  · rintro ⟨u, w, h⟩
    refine ⟨u.length, ?_⟩
    rw [← h, List.append_assoc, List.drop_left]
    exact List.prefix_append m w
  · rintro ⟨n, hp⟩
    exact ( List.IsPrefix.isInfix hp).trans ( List.IsSuffix.isInfix (List.drop_suffix n l))

theorem isInfix_append_split {α : Type} {m a b : List α} (h : m <:+: a ++ b) :
    m <:+: a ∨ m <:+: b ∨
      ∃ s t, s ++ t = m ∧ s ≠ [] ∧ t ≠ [] ∧ s <:+ a ∧ t <+: b := by
  rcases isInfix_iff_drop.mp h with ⟨n, hp⟩
  by_cases hn : a.length ≤ n
  · right; left
    rw [ List.drop_append_eq_append_drop, List.drop_eq_nil_of_le hn, List.nil_append] at hp
    exact isInfix_iff_drop.mpr ⟨n - a.length, hp⟩
  · push_neg at hn
    rw [ List.drop_append_eq_append_drop, Nat.sub_eq_zero_of_le (le_of_lt hn),
      List.drop_zero] at hp
    by_cases hl : m.length ≤ (List.drop n a).length
    · left
      have hm : m = List.take m.length (List.drop n a) := by
        have hx := List.prefix_iff_eq_take.mp hp
        rw [ List.take_append_eq_append_take, Nat.sub_eq_zero_of_le hl, List.take_zero,
          List.append_nil] at hx
        exact hx
      refine isInfix_iff_drop.mpr ⟨n, ?_⟩
      rw [hm]
      exact List.take_prefix m.length (List.drop n a)
    · push_neg at hl
      right; right
      have hlen := hp.length_le
      rw [ List.length_append] at hlen
      have hmeq : m = List.drop n a ++ List.take (m.length - (List.drop n a).length) b := by
        have hx := List.prefix_iff_eq_take.mp hp
        rw [ List.take_append_eq_append_take, List.take_of_length_le (le_of_lt hl)] at hx
        exact hx
      refine ⟨List.drop n a, List.take (m.length - (List.drop n a).length) b, hmeq.symm,
        ?_, ?_, List.drop_suffix n a, List.take_prefix _ b⟩
      · intro h0
        have hld := List.length_drop n a
        rw [h0] at hld
        simp at hld
        omega
      · intro h0
        have hlt : (List.take (m.length - (List.drop n a).length) b).length = 0 := by
          rw [h0]; rfl
        rw [ List.length_take] at hlt
        omega

theorem isSuffix_append_split {α : Type} {s a b : List α} (h : s <:+ a ++ b) :
    s <:+ b ∨ ∃ u, s = u ++ b ∧ u <:+ a := by
  have hlen := h.length_le
  rw [ List.length_append] at hlen
  have hs := List.suffix_iff_eq_drop.mp h
  rw [ List.length_append, List.drop_append_eq_append_drop] at hs
  by_cases hl : s.length ≤ b.length
  · left
    rw [ List.drop_eq_nil_of_le (by omega), List.nil_append] at hs
    rw [hs]
    exact List.drop_suffix _ b
  · right
    push_neg at hl
    have h0 : a.length + b.length - s.length - a.length = 0 := by omega
    rw [h0, List.drop_zero] at hs
    exact ⟨List.drop (a.length + b.length - s.length) a, hs,
      List.drop_suffix _ a⟩

theorem overlapFree_spec {a m : List Char} (hof : overlapFree a m = true) :
    ∀ s : List Char, s <:+ a → s ≠ [] → ¬ s <+: m := by
  intro s hs hne hpre
  have hmem : s ∈ a.tails := (List.mem_tails s a).mpr hs
  have hh := List.all_eq_true.mp hof s hmem
  rw [Bool.or_eq_true] at hh
  rcases hh with h1 | h1
  · exact hne (List.isEmpty_iff.mp h1)
  · rw [Bool.not_eq_true'] at h1
    have h2 : s.isPrefixOf m = true := List.isPrefixOf_iff_prefix.mpr hpre
    rw [h1] at h2
    exact Bool.false_ne_true h2

theorem markerOf_mem : ∀ i : Fin 6, markerOf i ∈ markerList := by decide

theorem markerOf_inj : ∀ i j : Fin 6, markerOf i = markerOf j → i = j := by decide

theorem marker_ne_nil : ∀ m ∈ markerList, m ≠ [] := by decide

theorem marker_no_rparen : ∀ m ∈ markerList, ')' ∉ m := by decide

theorem marker_in_head_eq : ∀ m ∈ markerList, ∀ a ∈ markerList,
    listContains (a ++ openParen) m = true → m = a := by decide

theorem marker_not_in_close : ∀ m ∈ markerList, listContains segClose m = false := by decide

theorem marker_overlapFree_head : ∀ m ∈ markerList, ∀ a ∈ markerList,
    overlapFree (a ++ openParen) m = true := by decide

theorem marker_overlapFree_close : ∀ m ∈ markerList, overlapFree segClose m = true := by decide

theorem seg_ne_nil (m v : PyStr) : seg m v ≠ [] := by
  intro h
  unfold seg at h
  rcases List.append_eq_nil.mp h with ⟨-, h2⟩
  exact (by decide : segClose ≠ []) h2

@[simp] theorem seg_eq_nil_iff (m v : PyStr) : (seg m v = []) ↔ False :=
  iff_false_intro (seg_ne_nil m v)

theorem marker_not_isInfix_seg {m a v : List Char} (hm : m ∈ markerList)
    (ha : a ∈ markerList) (hne : m ≠ a) (hv : ¬ m <:+: v) : ¬ m <:+: seg a v := by
  intro h
  have h' : m <:+: (a ++ openParen) ++ (v ++ segClose) := by
    simpa [seg, List.append_assoc] using h
  rcases isInfix_append_split h' with h1 | h1 | ⟨s, t, hst, hsne, htne, hsuf, hpre⟩
  · exact hne (marker_in_head_eq m hm a ha (listContains_iff.mpr h1))
  · rcases isInfix_append_split h1 with h2 | h2 | ⟨s, t, hst, hsne, htne, hsuf, hpre⟩
    · exact hv h2
    · have hc := listContains_iff.mpr h2
      rw [marker_not_in_close m hm] at hc
      exact Bool.false_ne_true hc
    · have hrp : ')' ∈ t := by
        have hsc : segClose = ')' :: (';' :: [' ']) := rfl
        rw [hsc] at hpre
        cases t with
        | nil => exact absurd rfl htne
        | cons c t' =>
          rcases List.cons_prefix_cons.mp hpre with ⟨hc, -⟩
          rw [hc]
          exact List.mem_cons_self _ _
      have hrm : ')' ∈ m := hst ▸ List.mem_append_right s hrp
      exact marker_no_rparen m hm hrm
  · refine overlapFree_spec (marker_overlapFree_head m hm a ha) s hsuf hsne ?_
    rw [← hst]
    exact List.prefix_append s t

theorem marker_isInfix_seg_self (m v : List Char) : m <:+: seg m v := by
  have h : seg m v = m ++ (openParen ++ (v ++ segClose)) := by
    simp [seg, List.append_assoc]
  rw [h]
  exact List.IsPrefix.isInfix (List.prefix_append m _)

theorem descOf_nil : descOf [] = [] := rfl

theorem descOf_cons (p : PyStr × PyStr) (items : List (PyStr × PyStr)) :
    descOf (p :: items) = seg p.1 p.2 ++ descOf items := by
  simp [descOf]

theorem marker_isInfix_descOf {m : List Char} (hm : m ∈ markerList) :
    ∀ items : List (PyStr × PyStr), (∀ p ∈ items, p.1 ∈ markerList) →
      (∀ p ∈ items, ¬ m <:+: p.2) →
      (m <:+: descOf items ↔ ∃ p ∈ items, p.1 = m) := by
  intro items
  induction items with
  | nil =>
    intro _ _
    rw [descOf_nil]
    constructor
    · intro h
      exact absurd ( List.infix_nil.mp h) (marker_ne_nil m hm)
    · rintro ⟨p, hp, -⟩
      exact absurd hp (List.not_mem_nil p)
  | cons hd tl ih =>
    intro hms hvs
    have hms_tl : ∀ p ∈ tl, p.1 ∈ markerList :=
      fun p hp => hms p (List.mem_cons_of_mem hd hp)
    have hvs_tl : ∀ p ∈ tl, ¬ m <:+: p.2 :=
      fun p hp => hvs p (List.mem_cons_of_mem hd hp)
    rw [descOf_cons]
    constructor
    · intro h
      rcases isInfix_append_split h with h1 | h1 | ⟨s, t, hst, hsne, htne, hsuf, hpre⟩
      · by_cases he : m = hd.1
        · exact ⟨hd, List.mem_cons_self hd tl, he.symm⟩
        · exact absurd h1 (marker_not_isInfix_seg hm
            (hms hd (List.mem_cons_self hd tl)) he (hvs hd (List.mem_cons_self hd tl)))
      · rcases (ih hms_tl hvs_tl).mp h1 with ⟨p, hp, he⟩
        exact ⟨p, List.mem_cons_of_mem hd hp, he⟩
      · have hsuf' : s <:+ ((hd.1 ++ openParen) ++ hd.2) ++ segClose := by
          simpa [seg, List.append_assoc] using hsuf
        rcases isSuffix_append_split hsuf' with h2 | ⟨u, hu, -⟩
        · refine absurd ?_ (overlapFree_spec (marker_overlapFree_close m hm) s h2 hsne)
          rw [← hst]
          exact List.prefix_append s t
        · have hrp : ')' ∈ s := by
            rw [hu]
            exact List.mem_append_right u (by decide : ')' ∈ segClose)
          have hrm : ')' ∈ m := hst ▸ List.mem_append_left t hrp
          exact absurd hrm (marker_no_rparen m hm)
    · rintro ⟨p, hp, he⟩
      rcases List.mem_cons.mp hp with heq | htl
      · subst heq
        have h1 : m <:+: seg p.1 p.2 := by
          rw [← he]
          exact marker_isInfix_seg_self p.1 p.2
        exact h1.trans ( List.IsPrefix.isInfix (List.prefix_append _ _))
      · have h1 := (ih hms_tl hvs_tl).mpr ⟨p, htl, he⟩
        exact h1.trans ( List.IsSuffix.isInfix (List.suffix_append _ _))

theorem finRange_six : List.finRange 6 = [0, 1, 2, 3, 4, 5] := by decide

theorem ruleOk_0 (kota : List PyStr) (today : PyDate) (r : Record) :
    ruleOk kota today 0 r = is_valid_kk_no r.KK_NO := rfl

theorem ruleOk_1 (kota : List PyStr) (today : PyDate) (r : Record) :
    ruleOk kota today 1 r = is_valid_nik r.NIK := rfl

theorem ruleOk_2 (kota : List PyStr) (today : PyDate) (r : Record) :
    ruleOk kota today 2 r = is_valid_custname r.CUSTNAME := rfl

theorem ruleOk_3 (kota : List PyStr) (today : PyDate) (r : Record) :
    ruleOk kota today 3 r = is_valid_jenis_kelamin r.JENIS_KELAMIN := rfl

theorem ruleOk_4 (kota : List PyStr) (today : PyDate) (r : Record) :
    ruleOk kota today 4 r = is_valid_tempat_lahir r.TEMPAT_LAHIR kota := rfl

theorem ruleOk_5 (kota : List PyStr) (today : PyDate) (r : Record) :
    ruleOk kota today 5 r = is_valid_tanggal_lahir today r.TANGGAL_LAHIR := rfl

theorem markerOf_0 : markerOf 0 = mkKK := rfl

theorem markerOf_1 : markerOf 1 = mkNIK := rfl

theorem markerOf_2 : markerOf 2 = mkName := rfl

theorem markerOf_3 : markerOf 3 = mkGender := rfl

theorem markerOf_4 : markerOf 4 = mkPlace := rfl

theorem markerOf_5 : markerOf 5 = mkDate := rfl

theorem fieldOf_0 (r : Record) : fieldOf 0 r = r.KK_NO := rfl

theorem fieldOf_1 (r : Record) : fieldOf 1 r = r.NIK := rfl

theorem fieldOf_2 (r : Record) : fieldOf 2 r = r.CUSTNAME := rfl

theorem fieldOf_3 (r : Record) : fieldOf 3 r = r.JENIS_KELAMIN := rfl

theorem fieldOf_4 (r : Record) : fieldOf 4 r = r.TEMPAT_LAHIR := rfl

theorem fieldOf_5 (r : Record) : fieldOf 5 r = r.TANGGAL_LAHIR := rfl

theorem checkDesc_eq_descOf (kota : List PyStr) (today : PyDate) (r : Record) :
    checkDesc kota today r = descOf (failItems kota today r) := by
  unfold failItems
  rw [finRange_six]
  simp only [List.filterMap_cons, List.filterMap_nil]
  cases h0 : is_valid_kk_no r.KK_NO <;> cases h1 : is_valid_nik r.NIK <;>
  cases h2 : is_valid_custname r.CUSTNAME <;>
  cases h3 : is_valid_jenis_kelamin r.JENIS_KELAMIN <;>
  cases h4 : is_valid_tempat_lahir r.TEMPAT_LAHIR kota <;>
  cases h5 : is_valid_tanggal_lahir today r.TANGGAL_LAHIR <;>
    simp [checkDesc, descOf, ruleOk_0, ruleOk_1, ruleOk_2, ruleOk_3, ruleOk_4, ruleOk_5,
      markerOf_0, markerOf_1, markerOf_2, markerOf_3, markerOf_4, markerOf_5,
      fieldOf_0, fieldOf_1, fieldOf_2, fieldOf_3, fieldOf_4, fieldOf_5,
      h0, h1, h2, h3, h4, h5, List.append_assoc]

theorem failItems_exists_iff (kota : List PyStr) (today : PyDate) (r : Record) (i : Fin 6) :
    (∃ p ∈ failItems kota today r, p.1 = markerOf i) ↔ ruleOk kota today i r = false := by
  constructor
  · rintro ⟨p, hp, hpe⟩
    rcases List.mem_filterMap.mp hp with ⟨j, -, hj⟩
    by_cases hr : ruleOk kota today j r = true
    · rw [if_pos hr] at hj
      exact Option.noConfusion hj
    · rw [if_neg hr] at hj
      have hpj := Option.some.inj hj
      rw [← hpj] at hpe
      have hij := markerOf_inj j i hpe
      subst hij
      cases hb : ruleOk kota today j r
      · rfl
      · exact absurd hb hr
  · intro h
    refine ⟨(markerOf i, pyToStr (fieldOf i r)), ?_, rfl⟩
    refine List.mem_filterMap.mpr ⟨i, List.mem_finRange i, ?_⟩
    rw [if_neg (by simp [h])]

theorem failItems_values (kota : List PyStr) (today : PyDate) (r : Record) {m : PyStr}
    (hvals : ∀ j : Fin 6, ¬ m <:+: pyToStr (fieldOf j r)) :
    ∀ p ∈ failItems kota today r, ¬ m <:+: p.2 := by
  intro p hp
  rcases List.mem_filterMap.mp hp with ⟨j, -, hj⟩
  by_cases hr : ruleOk kota today j r = true
  · rw [if_pos hr] at hj
    exact Option.noConfusion hj
  · rw [if_neg hr] at hj
    have hpj := Option.some.inj hj
    rw [← hpj]
    exact hvals j

theorem failItems_markers (kota : List PyStr) (today : PyDate) (r : Record) :
    ∀ p ∈ failItems kota today r, p.1 ∈ markerList := by
  intro p hp
  rcases List.mem_filterMap.mp hp with ⟨j, -, hj⟩
  by_cases hr : ruleOk kota today j r = true
  · rw [if_pos hr] at hj
    exact Option.noConfusion hj
  · rw [if_neg hr] at hj
    have hpj := Option.some.inj hj
    rw [← hpj]
    exact markerOf_mem j

theorem marker_isInfix_checkDesc (kota : List PyStr) (today : PyDate) (r : Record) (i : Fin 6)
    (hvals : ∀ m ∈ markerList, ∀ j : Fin 6, ¬ m <:+: pyToStr (fieldOf j r)) :
    markerOf i <:+: checkDesc kota today r ↔ ruleOk kota today i r = false := by
  rw [checkDesc_eq_descOf]
  rw [marker_isInfix_descOf (markerOf_mem i) (failItems kota today r)
    (failItems_markers kota today r)
    (failItems_values kota today r (hvals (markerOf i) (markerOf_mem i)))]
  exact failItems_exists_iff kota today r i

theorem checkDesc_eq_nil_iff (kota : List PyStr) (today : PyDate) (r : Record) :
    checkDesc kota today r = [] ↔ cleanMask kota today r = true := by
  cases h0 : is_valid_kk_no r.KK_NO <;> cases h1 : is_valid_nik r.NIK <;>
  cases h2 : is_valid_custname r.CUSTNAME <;>
  cases h3 : is_valid_jenis_kelamin r.JENIS_KELAMIN <;>
  cases h4 : is_valid_tempat_lahir r.TEMPAT_LAHIR kota <;>
  cases h5 : is_valid_tanggal_lahir today r.TANGGAL_LAHIR <;>
    simp [checkDesc, cleanMask, h0, h1, h2, h3, h4, h5]

theorem countP_add_countP_not {α : Type} (p : α → Bool) (l : List α) :
    List.countP p l + List.countP (fun a => !(p a)) l = l.length := by
  induction l with
  | nil => simp
  | cons a t ih => cases h : p a <;> simp [List.countP_cons, h] <;> omega

/-- C1 (corrected): provided no raw field value's string form contains any
of the six failure markers, each per-rule invalid count computed by
substring search over the messy Check_Desc column equals the number of
records in the batch for which that rule's predicate is false. The
marker-freedom hypothesis is forced by the counterexample below: a raw
value embedding a marker makes the substring count overshoot. -/
theorem per_rule_counts (rows : List Record) (kota : List PyStr) (today : PyDate)
    (h : ∀ r ∈ rows, ∀ j : Fin 6, ∀ m ∈ markerList,
      listContains (pyToStr (fieldOf j r)) m = false) :
    ∀ i : Fin 6, invalidCount (clean_data rows kota today).1 (markerOf i)
      = (rows.filter fun r => !(ruleOk kota today i r)).length := by
  intro i
  have hmain : ∀ r ∈ rows,
      (listContains (checkDesc kota today r) (markerOf i)
        && !(checkDesc kota today r).isEmpty) = true
        ↔ (!(ruleOk kota today i r)) = true := by
    intro r hr
    have hv : ∀ m ∈ markerList, ∀ j : Fin 6, ¬ m <:+: pyToStr (fieldOf j r) := by
      intro m hm j hinf
      have hc := listContains_iff.mpr hinf
      rw [h r hr j m hm] at hc
      exact Bool.false_ne_true hc
    have hkey := marker_isInfix_checkDesc kota today r i hv
    constructor
    · intro hb
      rw [Bool.and_eq_true] at hb
      have hinf := listContains_iff.mp hb.1
      simp [hkey.mp hinf]
    · intro hb
      have hro : ruleOk kota today i r = false := by
        cases hx : ruleOk kota today i r
        · rfl
        · rw [hx] at hb
          exact absurd hb (by decide)
      have hinf := hkey.mpr hro
      have hne : checkDesc kota today r ≠ [] := by
        intro h0
        rw [h0] at hinf
        exact marker_ne_nil (markerOf i) (markerOf_mem i) ( List.infix_nil.mp hinf)
      rw [Bool.and_eq_true]
      refine ⟨listContains_iff.mpr hinf, ?_⟩
      rw [Bool.not_eq_true']
      cases he : (checkDesc kota today r).isEmpty
      · rfl
      · exact absurd (List.isEmpty_iff.mp he) hne
  have hmessy : (clean_data rows kota today).1
      = (rows.map fun r => (r, checkDesc kota today r)).filter (fun p => !p.2.isEmpty) := rfl
  unfold invalidCount
  rw [hmessy]
  rw [← List.countP_eq_length_filter, ← List.countP_eq_length_filter,
    List.countP_filter, List.countP_map]
  exact List.countP_congr (fun r hr => by simpa [Function.comp] using hmain r hr)

/-- C1 counterexample: a concrete one-record batch on which the claim as
stated fails. The record's KK_NO is valid, so zero records fail the KK_NO
rule, yet the invalid_counts entry for KK_NO is 1, because the failing
CUSTNAME raw value "Invalid KK_NO 1" embeds the KK_NO marker into the
record's Check_Desc string. -/
theorem per_rule_counts_cx :
    invalidCount (clean_data [cxRecord] cxKota cxToday).1 mkKK = 1 ∧
    ([cxRecord].filter fun r => !(is_valid_kk_no r.KK_NO)).length = 0 := by decide

/-- C1 witness: the amended count theorem applied to a concrete marker-free
batch whose single record fails exactly the NIK rule, at the NIK index. -/
theorem per_rule_counts_witness :
    invalidCount (clean_data [wRecord] cxKota cxToday).1 (markerOf 1)
      = ([wRecord].filter fun r => !(ruleOk cxKota cxToday 1 r)).length :=
  per_rule_counts [wRecord] cxKota cxToday (by decide) 1

/-- C2 (confirmed): clean_data partitions every batch: the sizes of messy
and clean sum to the batch size, no record is in both collections, every
record reaches one of them, and both outputs are sublists of the input
(hence preserve the input's relative order). -/
theorem clean_data_partition (rows : List Record) (kota : List PyStr) (today : PyDate) :
    (clean_data rows kota today).1.length + (clean_data rows kota today).2.length
        = rows.length ∧
    (∀ r d, (r, d) ∈ (clean_data rows kota today).1 → r ∉ (clean_data rows kota today).2) ∧
    (∀ r ∈ rows, r ∈ (clean_data rows kota today).2 ∨
      ∃ d, (r, d) ∈ (clean_data rows kota today).1) ∧
    (clean_data rows kota today).2.Sublist rows ∧
    ((clean_data rows kota today).1.map Prod.fst).Sublist rows := by
  have hmessy : (clean_data rows kota today).1
      = (rows.map fun r => (r, checkDesc kota today r)).filter (fun p => !p.2.isEmpty) := rfl
  have hclean : (clean_data rows kota today).2 = rows.filter (cleanMask kota today) := rfl
  have hdesc : ∀ r : Record,
      (!(checkDesc kota today r).isEmpty) = (!(cleanMask kota today r)) := by
    intro r
    cases hm : cleanMask kota today r
    · have hne : checkDesc kota today r ≠ [] := by
        intro h0
        have hx := (checkDesc_eq_nil_iff kota today r).mp h0
        rw [hm] at hx
        exact Bool.noConfusion hx
      cases he : (checkDesc kota today r).isEmpty
      · rfl
      · exact absurd (List.isEmpty_iff.mp he) hne
    · have h0 : checkDesc kota today r = [] := (checkDesc_eq_nil_iff kota today r).mpr hm
      rw [h0]
      rfl
  refine ⟨?_, ?_, ?_, ?_, ?_⟩
  · rw [hmessy, hclean, ← List.countP_eq_length_filter, ← List.countP_eq_length_filter,
      List.countP_map]
    have hcg : List.countP ((fun p => !p.2.isEmpty) ∘ fun r => (r, checkDesc kota today r)) rows
        = List.countP (fun r => !(cleanMask kota today r)) rows :=
      List.countP_congr (fun r hr => by simp [Function.comp, hdesc r])
    rw [hcg]
    have hsum := countP_add_countP_not (cleanMask kota today) rows
    omega
  · intro r d hmem hcl
    rw [hmessy] at hmem
    rw [hclean] at hcl
    rcases List.mem_filter.mp hmem with ⟨hmem', hcond⟩
    rcases List.mem_map.mp hmem' with ⟨r', hr', heq⟩
    injection heq with h1 h2
    subst h1
    subst h2
    rcases List.mem_filter.mp hcl with ⟨-, hmask⟩
    have h0 : checkDesc kota today r' = [] := (checkDesc_eq_nil_iff kota today r').mpr hmask
    simp [h0] at hcond
  · intro r hr
    cases hm : cleanMask kota today r
    · right
      refine ⟨checkDesc kota today r, ?_⟩
      rw [hmessy]
      refine List.mem_filter.mpr ⟨List.mem_map.mpr ⟨r, hr, rfl⟩, ?_⟩
      simp [hdesc r, hm]
    · left
      rw [hclean]
      exact List.mem_filter.mpr ⟨hr, hm⟩
  · rw [hclean]
    exact List.filter_sublist rows
  · rw [hmessy]
    have h1 : ((rows.map fun r => (r, checkDesc kota today r)).filter
        fun p => !p.2.isEmpty).Sublist (rows.map fun r => (r, checkDesc kota today r)) :=
      List.filter_sublist _
    have h2 := h1.map Prod.fst
    rw [ List.map_map] at h2
    have h3 : rows.map (Prod.fst ∘ fun r => (r, checkDesc kota today r)) = rows := by
      simp [Function.comp_def]
    rw [h3] at h2
    exact h2

/-- C2 witness: the partition theorem applied to a concrete batch. -/
theorem clean_data_partition_witness :
    (clean_data [wRecord] cxKota cxToday).1.length
        + (clean_data [wRecord] cxKota cxToday).2.length = ([wRecord] : List Record).length ∧
    (∀ r d, (r, d) ∈ (clean_data [wRecord] cxKota cxToday).1 →
      r ∉ (clean_data [wRecord] cxKota cxToday).2) ∧
    (∀ r ∈ ([wRecord] : List Record), r ∈ (clean_data [wRecord] cxKota cxToday).2 ∨
      ∃ d, (r, d) ∈ (clean_data [wRecord] cxKota cxToday).1) ∧
    (clean_data [wRecord] cxKota cxToday).2.Sublist [wRecord] ∧
    ((clean_data [wRecord] cxKota cxToday).1.map Prod.fst).Sublist [wRecord] :=
  clean_data_partition [wRecord] cxKota cxToday

theorem dropWhile_append_all {p : Char → Bool} {w l : List Char}
    (hw : ∀ c ∈ w, p c = true) : List.dropWhile p (w ++ l) = List.dropWhile p l := by
  induction w with
  | nil => rfl
  | cons c w' ihw =>
    rw [List.cons_append, List.dropWhile_cons, if_pos (hw c (List.mem_cons_self c w'))]
    exact ihw fun c' hc' => hw c' (List.mem_cons_of_mem c hc')

theorem dropWhile_all {p : Char → Bool} {w : List Char} (hw : ∀ c ∈ w, p c = true) :
    List.dropWhile p w = [] := by
  induction w with
  | nil => rfl
  | cons c w' ihw =>
    rw [List.dropWhile_cons, if_pos (hw c (List.mem_cons_self c w'))]
    exact ihw fun c' hc' => hw c' (List.mem_cons_of_mem c hc')

theorem pyLstrip_append_all {w l : List Char} (hw : ∀ c ∈ w, pySpace c = true) :
    pyLstrip (w ++ l) = pyLstrip l := dropWhile_append_all hw

theorem pyRstrip_append_all {w l : List Char} (hw : ∀ c ∈ w, pySpace c = true) :
    pyRstrip (l ++ w) = pyRstrip l := by
  unfold pyRstrip
  rw [ List.reverse_append]
  rw [dropWhile_append_all fun c hc => hw c (List.mem_reverse.mp hc)]

theorem pyStrip_pad {s w1 w2 : List Char} (h1 : ∀ c ∈ w1, pySpace c = true)
    (h2 : ∀ c ∈ w2, pySpace c = true) : pyStrip (w1 ++ s ++ w2) = pyStrip s := by
  unfold pyStrip
  rw [ List.append_assoc, pyLstrip_append_all h1]
  unfold pyLstrip
  rw [ List.dropWhile_append]
  by_cases he : (List.dropWhile pySpace s).isEmpty = true
  · rw [if_pos he, dropWhile_all h2, List.isEmpty_iff.mp he]
  · rw [if_neg he, pyRstrip_append_all h2]

theorem toUpper_space {c : Char} (h : pySpace c = true) : Char.toUpper c = c := by
  simp only [pySpace, Bool.or_eq_true, beq_iff_eq] at h
  rcases h with ((((h | h) | h) | h) | h) | h <;> subst h <;> decide

theorem pyUpper_space {w : List Char} (hw : ∀ c ∈ w, pySpace c = true) :
    ∀ c ∈ pyUpper w, pySpace c = true := by
  intro c hc
  rcases List.mem_map.mp hc with ⟨c', hc', rfl⟩
  rw [toUpper_space (hw c' hc')]
  exact hw c' hc'

/-- C6 (confirmed): the TEMPAT_LAHIR rule accepts a value exactly when it
is text whose upper-cased, stripped form belongs to the reference place
list; non-text input is rejected, and neither letter case nor surrounding
whitespace of the input affects the verdict. -/
theorem tempat_lahir_rule (kota : List PyStr) :
    (∀ s : PyStr, is_valid_tempat_lahir (.str s) kota = true ↔ pyStrip (pyUpper s) ∈ kota) ∧
    (∀ v : PyVal, (∀ s, v ≠ .str s) → is_valid_tempat_lahir v kota = false) ∧
    (∀ s t : PyStr, pyUpper s = pyUpper t →
      is_valid_tempat_lahir (.str s) kota = is_valid_tempat_lahir (.str t) kota) ∧
    (∀ (s w1 w2 : PyStr), (∀ c ∈ w1, pySpace c = true) → (∀ c ∈ w2, pySpace c = true) →
      is_valid_tempat_lahir (.str (w1 ++ s ++ w2)) kota
        = is_valid_tempat_lahir (.str s) kota) := by
  refine ⟨?_, ?_, ?_, ?_⟩
  · intro s
    simp [is_valid_tempat_lahir]
  · intro v hv
    cases v with
    | str s => exact absurd rfl (hv s)
    | pyNone => rfl
    | nan => rfl
    | timestamp d => rfl
  · intro s t h
    show decide (pyStrip (pyUpper s) ∈ kota) = decide (pyStrip (pyUpper t) ∈ kota)
    rw [h]
  · intro s w1 w2 h1 h2
    show decide (pyStrip (pyUpper (w1 ++ s ++ w2)) ∈ kota)
        = decide (pyStrip (pyUpper s) ∈ kota)
    have hu : pyUpper (w1 ++ s ++ w2) = pyUpper w1 ++ pyUpper s ++ pyUpper w2 := by
      simp [pyUpper]
    rw [hu, pyStrip_pad (pyUpper_space h1) (pyUpper_space h2)]

/-- C6 witness: the whitespace-invariance clause applied to a padded
lower-case "jakarta" against the concrete city list. -/
theorem tempat_lahir_witness :
    is_valid_tempat_lahir (.str ("  ".toList ++ "jakarta".toList ++ " ".toList)) cxKota
      = is_valid_tempat_lahir (.str ("jakarta".toList)) cxKota :=
  (tempat_lahir_rule cxKota).2.2.2 ("jakarta".toList) ("  ".toList) (" ".toList)
    (by decide) (by decide)

/-- C3 (confirmed): the NIK rule is the same predicate as the KK_NO rule,
and both accept exactly the 16-character all-digit strings that do not
end in "0000"; the spec's positive and negative examples behave as
stated. -/
theorem kk_nik_rule :
    (∀ v, is_valid_nik v = is_valid_kk_no v) ∧
    (∀ v, is_valid_kk_no v = true ↔
      ∃ s, v = PyVal.str s ∧ s.length = 16 ∧ (∀ c ∈ s, c.isDigit = true) ∧
        ¬ ("0000".toList <:+ s)) ∧
    is_valid_kk_no (.str ("1234567890123450".toList)) = true ∧
    is_valid_kk_no (.str ("12345678901230000".toList)) = false := by
  refine ⟨fun v => by cases v <;> rfl, ?_, by decide, by decide⟩
  intro v
  cases v with
  | str s =>
    constructor
    · intro h
      rw [show is_valid_kk_no (.str s)
            = (pyIsdigit s && s.length == 16 && !(pyEndsWith s ("0000".toList))) from rfl,
        Bool.and_eq_true, Bool.and_eq_true] at h
      obtain ⟨⟨hd, hl⟩, he⟩ := h
      rw [pyIsdigit, Bool.and_eq_true] at hd
      refine ⟨s, rfl, by simpa using hl, List.all_eq_true.mp hd.2, ?_⟩
      intro hs
      rw [Bool.not_eq_true'] at he
      have hx : ("0000".toList).isSuffixOf s = true := List.isSuffixOf_iff_suffix.mpr hs
      rw [show pyEndsWith s ("0000".toList) = ("0000".toList).isSuffixOf s from rfl] at he
      rw [he] at hx
      exact Bool.false_ne_true hx
    · rintro ⟨s2, heq, hlen, hdig, hsuf⟩
      injection heq with hss
      rw [hss]
      rw [show is_valid_kk_no (.str s2)
            = (pyIsdigit s2 && s2.length == 16 && !(pyEndsWith s2 ("0000".toList))) from rfl,
        Bool.and_eq_true, Bool.and_eq_true]
      have hne : s2 ≠ [] := by
        intro h0
        rw [h0] at hlen
        simp at hlen
      refine ⟨⟨?_, ?_⟩, ?_⟩
      · rw [pyIsdigit, Bool.and_eq_true]
        refine ⟨?_, List.all_eq_true.mpr hdig⟩
        cases he' : s2.isEmpty
        · rfl
        · exact absurd (List.isEmpty_iff.mp he') hne
      · simp [hlen]
      · rw [Bool.not_eq_true']
        rw [show pyEndsWith s2 ("0000".toList) = ("0000".toList).isSuffixOf s2 from rfl]
        cases hsb : ("0000".toList).isSuffixOf s2
        · rfl
        · exact absurd ( List.isSuffixOf_iff_suffix.mp hsb) hsuf
  | pyNone => simp [is_valid_kk_no]
  | nan => simp [is_valid_kk_no]
  | timestamp d => simp [is_valid_kk_no]

/-- C5 (confirmed): the JENIS_KELAMIN rule accepts a value exactly when
its stringified, upper-cased, stripped form is one of the four accepted
spellings; "  perempuan " is accepted and "WANITA" rejected. -/
theorem jenis_kelamin_rule :
    (∀ v, is_valid_jenis_kelamin v = true ↔ pyStrip (pyUpper (pyToStr v)) ∈ genderSet) ∧
    is_valid_jenis_kelamin (.str ("  perempuan ".toList)) = true ∧
    is_valid_jenis_kelamin (.str ("WANITA".toList)) = false := by
  refine ⟨fun v => by simp [is_valid_jenis_kelamin], by decide, by decide⟩

theorem flatten_map_append_sep (sep : List Char) :
    ∀ l : List (List Char), (l.map fun x => x ++ sep).flatten =
      if l = [] then [] else List.intercalate sep l ++ sep := by
  intro l
  induction l with
  | nil => simp
  | cons a t ih =>
    cases t with
    | nil => simp [List.intercalate]
    | cons b t' =>
      rw [List.map_cons, List.flatten_cons, ih]
      have hne : (b :: t') ≠ [] := by simp
      simp [hne, List.intercalate, List.intersperse_cons_cons, List.append_assoc]

theorem seg_eq_core_append (p : PyStr × PyStr) :
    seg p.1 p.2 = (p.1 ++ openParen ++ p.2 ++ [')']) ++ descSep := by
  have h : segClose = [')'] ++ descSep := rfl
  rw [seg, h]
  simp [List.append_assoc]

/-- C8 (confirmed): every record's Check_Desc string is exactly the
failure descriptions of its failing rules, taken in the fixed rule order,
each of the form "RuleMessage (raw value)", joined by the separator and
followed by one trailing separator exactly when at least one rule fails;
passing rules contribute no segment. -/
theorem checkDesc_format (kota : List PyStr) (today : PyDate) (r : Record) :
    checkDesc kota today r =
      if failSegs kota today r = [] then []
      else List.intercalate descSep (failSegs kota today r) ++ descSep := by
  rw [checkDesc_eq_descOf]
  unfold descOf failSegs
  have hmm : (failItems kota today r).map (fun p => seg p.1 p.2)
      = ((failItems kota today r).map fun p => p.1 ++ openParen ++ p.2 ++ [')']).map
          fun x => x ++ descSep := by
    rw [ List.map_map]
    exact List.map_congr_left fun p _ => seg_eq_core_append p
  rw [hmm, flatten_map_append_sep]

/-- C9 (confirmed): the engine is a pure function of the batch, the
reference place list and the injected reference date: equal inputs give
equal clean/messy partitions, with no other state. -/
theorem clean_data_pure (rows1 rows2 : List Record) (kota1 kota2 : List PyStr)
    (t1 t2 : PyDate) (h1 : rows1 = rows2) (h2 : kota1 = kota2) (h3 : t1 = t2) :
    clean_data rows1 kota1 t1 = clean_data rows2 kota2 t2 := by
  subst h1
  subst h2
  subst h3
  rfl

/-- C9 witness: two runs on the same concrete batch coincide. -/
theorem clean_data_pure_witness :
    clean_data [wRecord] cxKota cxToday = clean_data [wRecord] cxKota cxToday :=
  clean_data_pure [wRecord] [wRecord] cxKota cxKota cxToday cxToday rfl rfl rfl

/-- C10 (confirmed): a pandas Timestamp input short-circuits the text
parsing entirely: the TANGGAL_LAHIR rule accepts it exactly when its date
is on or before the reference date. -/
theorem tanggal_timestamp_bypass (today d : PyDate) :
    is_valid_tanggal_lahir today (.timestamp d) = true ↔ PyDate.le d today := by
  simp [is_valid_tanggal_lahir, pyIsna, PyDate.leb]

/-- C7 (confirmed): each of the six rules, re-expressed with every
Python primitive allowed to raise, returns Except.ok of the plain rule's
boolean on every input: the isinstance guards, total str() conversion and
the try/except around strptime make the rules total, and non-text or
missing input yields a false verdict rather than an error. -/
theorem rules_total (today : PyDate) (kota : List PyStr) (v : PyVal) :
    is_valid_kk_noE v = Except.ok (is_valid_kk_no v) ∧
    is_valid_nikE v = Except.ok (is_valid_nik v) ∧
    is_valid_custnameE v = Except.ok (is_valid_custname v) ∧
    is_valid_jenis_kelaminE v = Except.ok (is_valid_jenis_kelamin v) ∧
    is_valid_tempat_lahirE v kota = Except.ok (is_valid_tempat_lahir v kota) ∧
    is_valid_tanggal_lahirE today v = Except.ok (is_valid_tanggal_lahir today v) ∧
    is_valid_kk_no PyVal.nan = false ∧ is_valid_custname PyVal.pyNone = false ∧
    is_valid_tempat_lahir PyVal.nan kota = false ∧
    is_valid_tanggal_lahir today PyVal.nan = false := by
  refine ⟨?_, ?_, ?_, ?_, ?_, ?_, rfl, rfl, rfl, rfl⟩
  · cases v with
    | str s =>
      cases hd : pyIsdigit s <;> cases hl : s.length == 16 <;>
      cases he : pyEndsWith s ("0000".toList) <;>
        simp [is_valid_kk_noE, is_valid_kk_no, pyIsStr, pyIsdigitE, pyLenE,
          pyEndsWithE, hd, hl, he, bind, Except.bind, pure, Except.pure]
    | pyNone => rfl
    | nan => rfl
    | timestamp d => rfl
  · cases v with
    | str s =>
      cases hd : pyIsdigit s <;> cases hl : s.length == 16 <;>
      cases he : pyEndsWith s ("0000".toList) <;>
        simp [is_valid_nikE, is_valid_nik, pyIsStr, pyIsdigitE, pyLenE,
          pyEndsWithE, hd, hl, he, bind, Except.bind, pure, Except.pure]
    | pyNone => rfl
    | nan => rfl
    | timestamp d => rfl
  · cases v with
    | str s =>
      cases hd : s.any Char.isDigit <;>
        simp [is_valid_custnameE, is_valid_custname, pyIsStr, pyAnyDigitE, hd,
          bind, Except.bind, pure, Except.pure]
    | pyNone => rfl
    | nan => rfl
    | timestamp d => rfl
  · rfl
  · cases v with
    | str s =>
      simp [is_valid_tempat_lahirE, is_valid_tempat_lahir, pyIsStr, pyUpperStripE,
        bind, Except.bind, pure, Except.pure]
    | pyNone => rfl
    | nan => rfl
    | timestamp d => rfl
  · cases v with
    | str s =>
      cases hp : strptimeDMY s <;>
        simp [is_valid_tanggal_lahirE, is_valid_tanggal_lahir, strptimeE, pyIsna,
          pyToStr, hp]
    | pyNone => rfl
    | nan => rfl
    | timestamp d => rfl

/-- C4 counterexample: the rule as universally stated fails on a
Timestamp input: the code accepts a past-dated Timestamp although it is
not a text value parsing as DD/MM/YYYY (the condition the claim says is
equivalent to acceptance). -/
theorem tanggal_lahir_cx :
    is_valid_tanggal_lahir cxToday (PyVal.timestamp ⟨2000, 1, 1⟩) = true ∧
    ¬ specDMYAccept cxToday (PyVal.timestamp ⟨2000, 1, 1⟩) := by
  constructor
  · decide
  · rintro ⟨s, d, h, -, -⟩
    exact PyVal.noConfusion h

/-- C4 (corrected): restricted to inputs that are not Timestamps — the
restriction the counterexample forces — the TANGGAL_LAHIR rule accepts a
value exactly when it is a string parsed by the DD/MM/YYYY strptime model
(day/month/year order, 4-digit year, calendar-valid) to a date on or
before the reference date; missing, unparsable and wrongly-formatted
values are rejected. -/
theorem tanggal_lahir_rule (today : PyDate) (v : PyVal)
    (hnt : ∀ d, v ≠ PyVal.timestamp d) :
    is_valid_tanggal_lahir today v = true ↔ specDMYAccept today v := by
  cases v with
  | str s =>
    cases hp : strptimeDMY s with
    | some d => simp [is_valid_tanggal_lahir, pyIsna, pyToStr, hp, specDMYAccept]
    | none => simp [is_valid_tanggal_lahir, pyIsna, pyToStr, hp, specDMYAccept]
  | pyNone => simp [is_valid_tanggal_lahir, pyIsna, specDMYAccept]
  | nan => simp [is_valid_tanggal_lahir, pyIsna, specDMYAccept]
  | timestamp d => exact absurd rfl (hnt d)

/-- C4 witness: the amended rule applied to the spec's accepted example
"01/01/2000" with reference date 2024-06-01. -/
theorem tanggal_lahir_witness :
    is_valid_tanggal_lahir cxToday (PyVal.str ("01/01/2000".toList)) = true :=
  (tanggal_lahir_rule cxToday (PyVal.str ("01/01/2000".toList))
      (fun d h => PyVal.noConfusion h)).mpr
    ⟨"01/01/2000".toList, ⟨2000, 1, 1⟩, rfl, by decide, by decide⟩

/-- Spec examples for the date rule beyond the claim theorems: the
wrongly-formatted "2000-01-01" and the future "31/12/2999" are rejected,
and the strptime model refuses non-4-digit years and invalid calendar
days exactly as CPython does. -/
theorem tanggal_lahir_examples :
    is_valid_tanggal_lahir cxToday (.str ("2000-01-01".toList)) = false ∧
    is_valid_tanggal_lahir cxToday (.str ("31/12/2999".toList)) = false ∧
    strptimeDMY ("1/1/999".toList) = none ∧
    strptimeDMY ("29/02/2001".toList) = none ∧
    strptimeDMY ("29/02/2000".toList) = some ⟨2000, 2, 29⟩ := by decide
